import Mathlib

/-!
Verification development for the DUBlicat Telegram duplicate-image scanner.

The JavaScript sources are shallowly embedded as pure Lean functions:
JS numbers are modelled as exact rationals (ℚ) or integers, strings as
Lean `String`, thrown exceptions as `Except`/`Option` failure values, and
the SQLite table plus the in-memory cache of `imageDatabase.js` as explicit
record lists threaded through each operation.
-/

namespace DUBlicat

/-! ## Signature engine (`imageHasher.js`) -/

/-- One step of the character-comparison loop of `calculateHashDistance`
(`for (let i = 0; i < hash1.length; i++) if (hash1[i] !== hash2[i]) distance++`),
expressed as a count over the index range of the first hash. Out-of-range
indexing (which cannot occur for equal-length inputs) defaults to `' '`. -/
def hashDiffCount (h1 h2 : List Char) : Nat :=
  ((List.range h1.length).filter (fun i => !(h1.getD i ' ' == h2.getD i ' '))).length

/-- `calculateHashDistance(hash1, hash2)` from `imageHasher.js` (lines 199-213).
Throws (modelled as `none`) when the lengths differ; otherwise counts the
differing positions and normalises to a percentage:
`(distance / hash1.length) * 100`. JS float arithmetic is modelled exactly
in ℚ; the `0/0 = NaN` corner for two empty hashes falls outside the model
(theorems that depend on the value carry a non-emptiness hypothesis). -/
def calculateHashDistance (h1 h2 : String) : Option ℚ :=
  if h1.length = h2.length then
    some (((hashDiffCount h1.data h2.data : ℚ) / (h1.length : ℚ)) * 100)
  else
    none

/-- `areImagesSimilar(hash1, hash2)` from `imageHasher.js` (lines 221-224):
`calculateHashDistance(hash1, hash2) <= config.hashDifferenceThreshold`.
The mutable `config.hashDifferenceThreshold` is passed explicitly. -/
def areImagesSimilar (threshold : ℚ) (h1 h2 : String) : Option Bool :=
  (calculateHashDistance h1 h2).map (fun distance => decide (distance ≤ threshold))

/-- `calculateSimilarityPercentage(hash1, hash2)` from `imageHasher.js`
(lines 232-236): `100 - (distance / maxDistance * 100)` where
`maxDistance = hash1.length * 4` and `distance` is already the
percentage-valued result of `calculateHashDistance`. -/
def calculateSimilarityPercentage (h1 h2 : String) : Option ℚ :=
  (calculateHashDistance h1 h2).map
    (fun distance => 100 - distance / ((h1.length : ℚ) * 4) * 100)

/-- Default `config.hashDifferenceThreshold` from `config.js`
(`parseInt(process.env.HASH_DIFFERENCE_THRESHOLD) || 10`). -/
def hashDifferenceThresholdDefault : ℚ := 10

/-- Default `config.maxImagesInMemory` from `config.js`. -/
def maxImagesInMemoryDefault : Nat := 100

/-! ## Image records

`imageInfo` objects as built by the scanners and stored by `imageDatabase.js`
(SQLite schema of lines 39-53 plus the extra fields of the lightweight scan).
`addedAt` is an ISO-8601 timestamp in the source; within one run those strings
compare lexicographically exactly in chronological order, so they are modelled
as a logical `Nat` clock. The human-readable `date` string of the lightweight
records is presentation-only and omitted. -/
structure ImageRec where
  fileId : String
  hash : String
  messageId : Int
  chatId : Int
  userId : Int
  fileSize : Int
  width : Int
  height : Int
  timestamp : Int
  source : String
  addedAt : Nat
  channelUsername : Option String
  messageLink : Option String
deriving DecidableEq, Repr

/-! ## `groupSimilarImages` (`imageHasher.js` lines 244-288)

The JS loops are embedded index-faithfully: `processedIds` is the set of
already-assigned `messageId`s, the inner loop walks the whole indexed list
skipping `i === j` and processed entries, and a length-mismatch exception
thrown by `calculateSimilarityPercentage` aborts the whole call (`none`).
The `JSON.parse(JSON.stringify(images))` deep copy is the identity under
value semantics. -/

/-- Inner loop of `groupSimilarImages` (`for (let j = 0; ...)`): scans the
whole indexed list, skipping index `i` and processed ids; on a similarity hit
the record is appended to the open group and its id marked processed. -/
def groupInnerLoop (thr : ℚ) (curHash : String) (i : Nat) :
    List (Nat × ImageRec) → List Int → List ImageRec →
    Option (List Int × List ImageRec)
  | [], processed, group => some (processed, group)
  | (j, img) :: rest, processed, group =>
    if j = i then groupInnerLoop thr curHash i rest processed group
    else if img.messageId ∈ processed then groupInnerLoop thr curHash i rest processed group
    else
      match calculateSimilarityPercentage curHash img.hash with
      | none => none
      | some similarity =>
        if thr ≤ similarity then
          groupInnerLoop thr curHash i rest (processed ++ [img.messageId]) (group ++ [img])
        else
          groupInnerLoop thr curHash i rest processed group

/-- Outer loop of `groupSimilarImages` (`for (let i = 0; ...)`): each
unprocessed record seeds a group; the group is emitted only when it gained
at least one more member (`group.length > 1`). -/
def groupOuterLoop (thr : ℚ) (allEnum : List (Nat × ImageRec)) :
    List (Nat × ImageRec) → List Int → List (List ImageRec) →
    Option (List (List ImageRec))
  | [], _, groups => some groups
  | (i, cur) :: rest, processed, groups =>
    if cur.messageId ∈ processed then groupOuterLoop thr allEnum rest processed groups
    else
      match groupInnerLoop thr cur.hash i allEnum (processed ++ [cur.messageId]) [cur] with
      | none => none
      | some (processed2, group) =>
        groupOuterLoop thr allEnum rest processed2
          (if 1 < group.length then groups ++ [group] else groups)

/-- `groupSimilarImages(images, threshold = 95)` from `imageHasher.js`. -/
def groupSimilarImages (images : List ImageRec) (threshold : ℚ) :
    Option (List (List ImageRec)) :=
  groupOuterLoop threshold images.enum images.enum [] []

/-! ## Image record store (`imageDatabase.js`)

State of the `ImageDatabase` singleton: `durable` models the rows of the
SQLite `images` table (`UNIQUE(fileId)`), `images` the in-memory cache
`this.images`, `loaded` the `this.loaded` flag, `useSqlite` the
`this.useSqlite` flag (constructor default `true`; it flips to `false` only
on a SQLite I/O failure, which the pure model does not represent), and
`dbInit` whether the `this.db` handle has been opened (it is `null` until
`load()` runs `_initSqliteDb`). -/
structure DBState where
  durable : List ImageRec
  images : List ImageRec
  loaded : Bool
  useSqlite : Bool
  dbInit : Bool
deriving DecidableEq, Repr

/-- The freshly constructed store (`constructor`, lines 16-23). -/
def initDB : DBState :=
  { durable := [], images := [], loaded := false, useSqlite := true, dbInit := false }

/-- `load()` on the default SQLite path (lines 100-141): opens the backend,
then `_loadImagesFromSqlite` copies every durable row into the in-memory
cache and sets `loaded`. The legacy-JSON import branch (lines 108-122) runs
only when an old JSON file exists on disk and is not modelled. -/
def loadDB (s : DBState) : DBState :=
  { s with dbInit := true, images := s.durable, loaded := true }

/-- JavaScript `arr.slice(-k)`. For `k = 0` the argument is `-0 === 0`, so
the slice starts at the beginning and returns the whole array instead of the
last zero elements. -/
def jsSliceLast (l : List α) (k : Nat) : List α :=
  if k = 0 then l else l.drop (l.length - k)

/-- Stable ascending insertion by a key, modelling lodash `_.sortBy`
(stable: an element is inserted after every earlier element whose key is
not larger). -/
def insertByKey (key : α → Int) (x : α) : List α → List α
  | [] => [x]
  | y :: l => if key y ≤ key x then y :: insertByKey key x l else x :: y :: l

/-- Stable ascending sort by a key (lodash `_.sortBy`, and `Array.sort` with
an ascending numeric comparator, which is stable per ES2019). -/
def sortByKey (key : α → Int) : List α → List α
  | [] => []
  | x :: l => insertByKey key x (sortByKey key l)

/-- `addImage(imageInfo)` (lines 230-274). Returns the mutated state plus the
JS return value: `Error` when the database is not loaded, otherwise the
boolean `added` flag. On the SQLite path `INSERT OR IGNORE` admits the row
only when no durable row has the same `fileId`; on success the record is also
pushed into the cache, which is then trimmed to the newest
`maxImagesInMemory` entries by `addedAt` (`_.sortBy(...).slice(-max)`).
On the JSON fallback path existence is checked against the cache itself. -/
def addImage (maxImagesInMemory : Nat) (s : DBState) (info : ImageRec) :
    DBState × Except String Bool :=
  if s.loaded = false then
    (s, .error ("База данных не загружена"))
  else if s.useSqlite then
    if s.durable.any (fun r => r.fileId == info.fileId) then
      (s, .ok false)
    else
      let durable2 := s.durable ++ [info]
      let images2 := s.images ++ [info]
      let images3 :=
        if maxImagesInMemory < images2.length then
          jsSliceLast (sortByKey (fun r => (r.addedAt : Int)) images2) maxImagesInMemory
        else images2
      ({ s with durable := durable2, images := images3 }, .ok true)
  else
    if s.images.any (fun r => r.fileId == info.fileId) then
      (s, .ok false)
    else
      let images2 := s.images ++ [info]
      let images3 :=
        if maxImagesInMemory < images2.length then
          jsSliceLast (sortByKey (fun r => (r.addedAt : Int)) images2) maxImagesInMemory
        else images2
      ({ s with images := images3 }, .ok true)

/-- `List.filter` threading a possibly-throwing boolean callback
(`Array.prototype.filter` where the predicate may throw). -/
def filterM (p : α → Option Bool) : List α → Option (List α)
  | [] => some []
  | x :: l =>
    match p x with
    | none => none
    | some b =>
      match filterM p l with
      | none => none
      | some r => some (if b then x :: r else r)

/-- `findSimilarImages(hash, similarityFunction)` (lines 282-284): a linear
scan of the in-memory cache only. There is no `loaded` check. The callback
may throw (e.g. `areImagesSimilar` on hashes of different length), which
aborts the whole call. -/
def findSimilarImages (s : DBState) (hash : String)
    (similarityFunction : String → String → Option Bool) : Option (List ImageRec) :=
  filterM (fun img => if img.hash = "" then some false else similarityFunction hash img.hash)
    s.images

/-- `getAllImages()` (lines 290-292): returns a copy of the in-memory cache —
not the durable SQLite table. No `loaded` check. -/
def getAllImages (s : DBState) : List ImageRec :=
  s.images

/-- `removeImage(fileId)` (lines 299-322). On the SQLite path: before `load`
the `this.db` handle is `null`, so `db.run` throws a `TypeError`; after
`load` the `DELETE` removes the durable rows, but the completion callback is
a plain `function`, so `this` is the sqlite statement context and
`this.images.length` throws — the cache is never filtered and the promise
never resolves. Both failures are modelled as errors. -/
def removeImage (s : DBState) (fileId : String) : DBState × Except String Bool :=
  if s.useSqlite then
    if s.dbInit = false then
      (s, .error ("TypeError: this.db is null"))
    else
      ({ s with durable := s.durable.filter (fun img => !(img.fileId == fileId)) },
       .error ("TypeError: this.images is undefined"))
  else
    ({ s with images := s.images.filter (fun img => !(img.fileId == fileId)) },
     .ok (decide (s.images.any (fun img => img.fileId == fileId))))

/-- `clear()` (lines 327-346). On the SQLite path: before `load` the `null`
handle throws; after `load` the `DELETE` empties the table and the arrow
callback (lexical `this`) empties the cache, resolving `true`. The JSON
branch empties the cache and returns `undefined` (modelled `false`). -/
def clearImages (s : DBState) : DBState × Except String Bool :=
  if s.useSqlite then
    if s.dbInit = false then
      (s, .error ("TypeError: this.db is null"))
    else
      ({ s with durable := [], images := [] }, .ok true)
  else
    ({ s with images := [] }, .ok false)

/-- Sequential `addImage` of a batch of records (the return flags are
ignored, as in the scanner call sites). -/
def addAll (maxImagesInMemory : Nat) (s : DBState) : List ImageRec → DBState
  | [] => s
  | info :: rest => addAll maxImagesInMemory (addImage maxImagesInMemory s info).1 rest

/-! ## String helpers

JS string primitives re-implemented structurally over the character list
(for the ASCII identifiers handled here, JS UTF-16 code-unit indexing
coincides with character indexing). -/

/-- JS `String.prototype.startsWith`. -/
def charsStartWith : List Char → List Char → Bool
  | _, [] => true
  | [], _ :: _ => false
  | c :: cs, p :: ps => c == p && charsStartWith cs ps

/-- JS `String.prototype.startsWith` on `String`. -/
def jsStartsWith (s pre : String) : Bool :=
  charsStartWith s.data pre.data

/-- JS `str.endsWith(suffix)`, used to state the link-shape properties. -/
def jsEndsWith (s suf : String) : Bool :=
  charsStartWith s.data.reverse suf.data.reverse

/-- The regex test `/^\d+$/.test(s)`: a non-empty all-digit string. -/
def jsAllDigits (s : String) : Bool :=
  !s.data.isEmpty && s.data.all (fun c => c.isDigit)

/-- JS `s.replace(/^-100/, '')` — drop a leading `-100` if present. -/
def drop100 (s : String) : String :=
  if jsStartsWith s ("-100") then ⟨s.data.drop 4⟩ else s

/-- JS `s.replace(/^@/, '')` — drop a leading `@` if present. -/
def dropAt (s : String) : String :=
  if jsStartsWith s ("@") then ⟨s.data.drop 1⟩ else s

/-! ## Scan orchestrator (`updatedChannelScanner.js`) -/

/-- A photo size entry (`{ w, h }` of an MTProto photo size). -/
structure PhotoSize where
  w : Int
  h : Int
deriving DecidableEq, Repr

/-- An MTProto photo object (`message.media.photo`). -/
structure PhotoObj where
  id : Int
  sizes : List PhotoSize
deriving DecidableEq, Repr

/-- An MTProto document object (`message.media.document`). -/
structure DocObj where
  id : Int
  mimeType : Option String
  size : Int
deriving DecidableEq, Repr

/-- A message media descriptor: the `_` type tag plus the optional `photo`
and `document` payloads the source sniffs for. -/
structure Media where
  tag : String
  photo : Option PhotoObj
  document : Option DocObj
deriving DecidableEq, Repr

/-- A Bot API photo size entry (`{ file_id, width, height }`). -/
structure BotPhoto where
  fileId : String
  width : Int
  height : Int
deriving DecidableEq, Repr

/-- A Telegram message as sniffed by the scanner: id, unix date, optional
MTProto `media`, optional Bot API `photo` array. -/
structure Msg where
  id : Int
  date : Int
  media : Option Media
  photo : Option (List BotPhoto)
deriving DecidableEq, Repr

/-- `_hasPhoto(message)` (`updatedChannelScanner.js` lines 583-615). -/
def hasPhotoMsg (m : Msg) : Bool :=
  match m.media with
  | none => false
  | some media =>
    if media.tag == ("messageMediaPhoto") || media.tag == ("MessageMediaPhoto")
        || media.photo.isSome then
      true
    else if (media.tag == ("messageMediaDocument") || media.tag == ("MessageMediaDocument"))
        && (match media.document with
            | some doc => match doc.mimeType with
              | some mt => jsStartsWith mt ("image/")
              | none => false
            | none => false) then
      true
    else if media.tag == ("Photo") then
      true
    else
      m.photo.isSome

/-- `_createMessageLink(channelId, messageId)` (`updatedChannelScanner.js`
lines 624-637): numeric or `-100`-prefixed identities produce a private
`https://t.me/c/<id-without--100>/<messageId>` link, anything else a public
`https://t.me/<name-without-@>/<messageId>` link. -/
def createMessageLinkScanner (channelId : String) (messageId : Int) : String :=
  if jsStartsWith channelId ("-100") || jsAllDigits channelId then
    ("https://t.me/c/") ++ drop100 channelId ++ ("/") ++ toString messageId
  else
    ("https://t.me/") ++ dropAt channelId ++ ("/") ++ toString messageId

/-- `createMessageLink(image)` (`imageAnalyzer.js` lines 26-44). The
`chatId` field is the JS stringification `image.chatId.toString()`, empty
when `image.chatId` is falsy. -/
def createMessageLinkAnalyzer (chatId : String) (messageId : Int)
    (channelUsername : Option String) : String :=
  if chatId ≠ ("") && jsStartsWith chatId ("-100") then
    ("https://t.me/c/") ++ (⟨chatId.data.drop 4⟩ : String) ++ ("/") ++ toString messageId
  else if chatId ≠ ("") then
    ("https://t.me/") ++ channelUsername.getD chatId ++ ("/") ++ toString messageId
  else
    ("")

/-- `_createPhotoSignature(message)` (`updatedChannelScanner.js` lines
645-672): a cheap structural signature derived from the media metadata,
`null` when no branch applies (the result string of each branch is never
empty). -/
def createPhotoSignature (m : Msg) : Option String :=
  match m.media with
  | some media =>
    match media.photo with
    | some photo =>
      let sizeTxt :=
        match photo.sizes.getLast? with
        | some largest => toString largest.w ++ ("x") ++ toString largest.h
        | none => ("unknown")
      some (("photo_") ++ toString photo.id ++ ("_") ++ sizeTxt)
    | none =>
      match media.document with
      | some doc =>
        some (("doc_") ++ toString doc.id ++ ("_") ++
          (match doc.mimeType with | some mt => mt | none => ("undefined")) ++
          ("_") ++ toString doc.size)
      | none =>
        match m.photo with
        | some sizes =>
          match sizes.getLast? with
          | some largest =>
            some (("botapi_") ++ largest.fileId ++ ("_") ++
              toString largest.width ++ ("x") ++ toString largest.height)
          | none => none
        | none => none
  | none =>
    match m.photo with
    | some sizes =>
      match sizes.getLast? with
      | some largest =>
        some (("botapi_") ++ largest.fileId ++ ("_") ++
          toString largest.width ++ ("x") ++ toString largest.height)
      | none => none
    | none => none

/-- Scanner instance state: the `isScanning` boolean guard and the
`processedMessageIds` set. -/
structure ScannerState where
  isScanning : Bool
  processedMessageIds : List Int
deriving DecidableEq, Repr

/-- A duplicate group as pushed onto `results.duplicateGroups`
(`{ hash, images, count }`, lines 866-870). -/
structure DupGroup where
  hash : String
  images : List ImageRec
  count : Nat
deriving DecidableEq, Repr

/-- The `results` counters object of a scan. -/
structure ScanResults where
  totalMessages : Nat
  processedImages : Nat
  similarImagesFound : Nat
  duplicateGroups : List DupGroup
  errors : Nat
  method : String
deriving DecidableEq, Repr

/-- The value a scan method resolves with: `success`, the `Busy` `message`,
the caught `error` message, and the `results` object when present. -/
structure ScanReturn where
  success : Bool
  message : Option String
  error : Option String
  results : Option ScanResults
deriving DecidableEq, Repr

/-- The `Busy` result returned by both scan methods while `isScanning`
(`{ success: false, message: 'Сканирование уже выполняется' }`). -/
def busyReturn : ScanReturn :=
  { success := false, message := some ("Сканирование уже выполняется"),
    error := none, results := none }

/-- Outcome of the body of `scanChannel` (everything inside the `try`,
lines 407-526): either the results object or a thrown error, along with the
scanner/store state it left behind. -/
inductive ScanBody where
  | ok (r : ScanResults) (st : ScannerState) (db : DBState)
  | thrown (e : String) (st : ScannerState) (db : DBState)

/-- `scanChannel(channelId, limit, method)` (`updatedChannelScanner.js`
lines 393-536). The claims about this method concern only its concurrency
guard (lines 393-405) and its `finally` (lines 533-535), so the
network-dependent `try` body is taken as an explicit argument: the guard
behaviour proved below holds for every body. -/
def scanChannel (st : ScannerState) (db : DBState)
    (body : ScannerState → DBState → ScanBody) : ScanReturn × ScannerState × DBState :=
  if st.isScanning then
    (busyReturn, st, db)
  else
    match body { st with isScanning := true } db with
    | .ok r st2 db2 =>
      ({ success := true, message := none, error := none, results := some r },
       { st2 with isScanning := false }, db2)
    | .thrown e st2 db2 =>
      ({ success := false, message := none, error := some e, results := none },
       { st2 with isScanning := false }, db2)

/-! ### `scanEntireChannelWithoutDownload` (lines 682-919)

The network environment of the lightweight scan — the estimated message
count, the channel entity and the batched `getMessages` responses — is
passed in as data; everything else is embedded faithfully. -/

/-- The external inputs of one lightweight scan run. -/
structure ScanEnv where
  cfgChannelId : String
  estimatedMessageCount : Nat
  channelChatId : Int
  channelUsername : Option String
  getMessages : Nat → Int → List Msg
  -- `getMessages limit offsetId` — the gramjs response for one batch request.

/-- Mutable loop state of the batch loop: the store, the running counters,
the `offsetId` cursor and a logical clock supplying `addedAt` stamps
(`new Date().toISOString()` at insertion time). -/
structure LoopState where
  db : DBState
  totalMessages : Nat
  processedImages : Nat
  errors : Nat
  offsetId : Int
  clock : Nat
deriving Repr

/-- Per-message step of the lightweight scan (lines 751-817): photo check,
structural signature, message link, record construction and `addImage`.
The surrounding `try`/`catch` turns a throwing `addImage` (store not
loaded) into `results.errors++`; in that case `processedImages` is not
incremented. -/
def processLightweightMessage (env : ScanEnv) (maxImagesInMemory : Nat)
    (channelTarget : String) (ls : LoopState) (m : Msg) : LoopState :=
  if hasPhotoMsg m then
    match createPhotoSignature m with
    | some sig =>
      let link := createMessageLinkScanner channelTarget m.id
      let info : ImageRec :=
        { fileId := ("virtual_") ++ toString m.id, hash := sig, messageId := m.id,
          chatId := env.channelChatId, userId := 0, fileSize := 0, width := 0,
          height := 0, timestamp := m.date, source := ("channel_scan_lightweight"),
          addedAt := ls.clock, channelUsername := env.channelUsername,
          messageLink := some link }
      match addImage maxImagesInMemory ls.db info with
      | (db2, .ok _) =>
        { ls with db := db2, processedImages := ls.processedImages + 1,
                  clock := ls.clock + 1 }
      | (db2, .error _) =>
        { ls with db := db2, errors := ls.errors + 1, clock := ls.clock + 1 }
    | none => ls
  else ls

/-- The batch loop (lines 728-827): up to `batchCount` batches, stopping on
an empty response; `totalMessages` accumulates, the cursor moves to the id
of the last message of the batch, then every message is processed. The
inter-batch cooldown sleep and the intermediate `save()` (a no-op on the
SQLite path) have no effect on the modelled state. -/
def scanBatchesLoop (env : ScanEnv) (maxImagesInMemory : Nat)
    (channelTarget : String) (batchSize : Nat) :
    Nat → LoopState → LoopState
  | 0, ls => ls
  | batchesLeft + 1, ls =>
    let messages := env.getMessages batchSize ls.offsetId
    if messages.isEmpty then ls
    else
      let ls1 := { ls with
        totalMessages := ls.totalMessages + messages.length,
        offsetId := ((messages.getLast?).map (fun m => m.id)).getD ls.offsetId }
      let ls2 := messages.foldl
        (processLightweightMessage env maxImagesInMemory channelTarget) ls1
      scanBatchesLoop env maxImagesInMemory channelTarget batchSize batchesLeft ls2

/-- One step of the `hashGroups` map construction (lines 835-840): push the
record onto the bucket of its signature, creating the bucket on first
sight. -/
def hashGroupsInsert (acc : List (String × List ImageRec)) (img : ImageRec) :
    List (String × List ImageRec) :=
  if acc.any (fun p => p.1 == img.hash) then
    acc.map (fun p => if p.1 == img.hash then (p.1, p.2 ++ [img]) else p)
  else acc ++ [(img.hash, [img])]

/-- The `hashGroups` map built at lines 834-840: a JS `Map` keyed by the
signature, preserving first-occurrence key order, each bucket collecting the
matching records in scan order. -/
def buildHashGroups (imgs : List ImageRec) : List (String × List ImageRec) :=
  imgs.foldl hashGroupsInsert []

/-- The duplicate-group list reported by the lightweight scan (lines
842-878): buckets with more than one record, members sorted by timestamp
ascending, groups sorted by descending member count. -/
def lightweightDuplicateGroups (allImages : List ImageRec) : List DupGroup :=
  sortByKey (fun g => -(g.count : Int))
    (((buildHashGroups allImages).filter (fun p => 1 < p.2.length)).map (fun p =>
      ({ hash := p.1, images := sortByKey (fun r => r.timestamp) p.2,
         count := p.2.length } : DupGroup)))

/-- `scanEntireChannelWithoutDownload(channelId, batchSize, cooldownSeconds)`
(lines 682-919): the busy guard, the missing-channel failure, the batch
loop, and the post-loop duplicate analysis — grouping the
provenance-filtered snapshot of `getAllImages()` by exact signature
equality, keeping buckets of more than one record, sorting members by
timestamp and groups by descending size. Cooldown only sleeps. The report
file is the `(messageId, date, link)` projection of the same groups and is
written to an external sink. -/
def scanEntireChannelWithoutDownload (env : ScanEnv) (maxImagesInMemory : Nat)
    (st : ScannerState) (db : DBState) (channelId : String) (batchSize : Nat)
    (_cooldownSeconds : Nat) : ScanReturn × ScannerState × DBState :=
  if st.isScanning then
    (busyReturn, st, db)
  else
    let channelTarget := if channelId = ("") then env.cfgChannelId else channelId
    if channelTarget = ("") then
      ({ success := false, message := none, error := some ("ID канала не указан"),
         results := none },
       { st with isScanning := false }, db)
    else
      let batchCount := (env.estimatedMessageCount + batchSize - 1) / batchSize
      let ls0 : LoopState :=
        { db := db, totalMessages := 0, processedImages := 0, errors := 0,
          offsetId := 0, clock := 0 }
      let lsF := scanBatchesLoop env maxImagesInMemory channelTarget batchSize
        batchCount ls0
      let allImages := (getAllImages lsF.db).filter
        (fun img => img.source == ("channel_scan_lightweight"))
      let similarFound := (((buildHashGroups allImages).filter
        (fun p => 1 < p.2.length)).map (fun p => p.2.length - 1)).foldl (· + ·) 0
      ({ success := true, message := none, error := none,
         results := some
           { totalMessages := lsF.totalMessages,
             processedImages := lsF.processedImages,
             similarImagesFound := similarFound,
             duplicateGroups := lightweightDuplicateGroups allImages,
             errors := lsF.errors, method := ("gramjs") } },
       { st with isScanning := false }, lsF.db)

/-! ## Supporting lemmas -/

/-- The positional difference count of the source loop coincides with the
count of mismatching pairs of the zipped hashes, for equal-length hashes. -/
theorem hashDiffCount_eq_zip_count : ∀ (l1 l2 : List Char), l1.length = l2.length →
    hashDiffCount l1 l2 = ((l1.zip l2).filter (fun p => !(p.1 == p.2))).length := by
  intro l1
  induction l1 with
  | nil =>
    intro l2 _
    simp [hashDiffCount]
  | cons a t1 ih =>
    intro l2 hlen
    cases l2 with
    | nil => simp at hlen
    | cons b t2 =>
      have htl : t1.length = t2.length := by
        simpa using hlen
      have hrange : List.range (a :: t1).length = 0 :: (List.range t1.length).map Nat.succ := by
        simp [List.range_succ_eq_map]
      have hmap : ∀ (p : Nat → Bool),
          ((List.range t1.length).map Nat.succ).filter p
            = ((List.range t1.length).filter (fun i => p (Nat.succ i))).map Nat.succ := by
        intro p
        rw [List.filter_map]
        rfl
      by_cases hab : (a == b) = true
      · have : hashDiffCount (a :: t1) (b :: t2) = hashDiffCount t1 t2 := by
          simp only [hashDiffCount, hrange, List.filter_cons, List.getD_cons_zero, hab,
            Bool.not_true, hmap, List.length_map]
          simp [List.getD_cons_succ]
        rw [this, ih t2 htl]
        simp [List.zip_cons_cons, List.filter_cons, hab]
      · have : hashDiffCount (a :: t1) (b :: t2) = hashDiffCount t1 t2 + 1 := by
          simp only [hashDiffCount, hrange, List.filter_cons, List.getD_cons_zero, hab,
            Bool.not_false, hmap, List.length_map]
          simp [List.getD_cons_succ, hab, Nat.add_comm]
        rw [this, ih t2 htl]
        simp [List.zip_cons_cons, List.filter_cons, hab, Nat.add_comm]

/-- C2: the claim states that for equal-length signatures `distance(a, b)`
returns the integer count of differing positions. The code
(`calculateHashDistance`, `imageHasher.js` lines 199-213) instead returns the
count normalised to a percentage of the length: on `"ab"` vs `"aa"` exactly
one of two positions differs, the claimed return value is `1`, but the
function returns `50`. -/
theorem calculateHashDistance_counterexample :
    calculateHashDistance ("ab") ("aa") = some 50
      ∧ ((("ab").data.zip ("aa").data).filter (fun p => !(p.1 == p.2))).length = 1
      ∧ (50 : ℚ) ≠ 1 := by
  refine ⟨?_, by decide, by norm_num⟩
  have hc : hashDiffCount ("ab").data ("aa").data = 1 := by decide
  have hlen : ("ab" : String).length = ("aa" : String).length := by decide
  have hl2 : ("ab" : String).length = 2 := by decide
  rw [calculateHashDistance, if_pos hlen, hc, hl2]
  norm_num

/-- C2 (amended): for equal-length signatures `calculateHashDistance` returns
the *percentage* of differing positions, `(count / len) * 100` (not the raw
count, and not necessarily an integer); for signatures of different lengths
it throws (`Хеши должны быть одинаковой длины`) and produces no value. -/
theorem calculateHashDistance_spec (h1 h2 : String) :
    (h1.length = h2.length →
      calculateHashDistance h1 h2 =
        some ((((h1.data.zip h2.data).filter (fun p => !(p.1 == p.2))).length : ℚ)
          / (h1.length : ℚ) * 100))
  ∧ (h1.length ≠ h2.length → calculateHashDistance h1 h2 = none) := by
  constructor
  · intro hlen
    have hdata : h1.data.length = h2.data.length := hlen
    rw [calculateHashDistance, if_pos hlen, hashDiffCount_eq_zip_count h1.data h2.data hdata]
  · intro hlen
    rw [calculateHashDistance, if_neg hlen]

/-- C2 witness: the amended statement evaluated on the concrete pair
`"ab"`, `"aa"`. -/
theorem calculateHashDistance_spec_witness :
    (("ab" : String).length = ("aa" : String).length)
      ∧ calculateHashDistance ("ab") ("aa") =
        some ((((("ab") : String).data.zip (("aa") : String).data).filter
          (fun p => !(p.1 == p.2))).length / ((("ab") : String).length : ℚ) * 100) :=
  ⟨by decide, (calculateHashDistance_spec ("ab") ("aa")).1 (by decide)⟩

/-- C7: `"AAAA"` and `"AAAB"` differ in 1 of 4 positions, a normalised
dissimilarity of 25%; `areImagesSimilar` accepts them at threshold 25
(`25 ≤ 25`) and rejects them at threshold 10. -/
theorem areImagesSimilar_threshold_boundary :
    areImagesSimilar 25 ("AAAA") ("AAAB") = some true
      ∧ areImagesSimilar 10 ("AAAA") ("AAAB") = some false := by
  have hd : calculateHashDistance ("AAAA") ("AAAB") = some 25 := by
    have hc : hashDiffCount ("AAAA").data ("AAAB").data = 1 := by decide
    have hlen : ("AAAA" : String).length = ("AAAB" : String).length := by decide
    have hl4 : ("AAAA" : String).length = 4 := by decide
    rw [calculateHashDistance, if_pos hlen, hc, hl4]
    norm_num
  constructor
  · rw [areImagesSimilar, hd]
    norm_num
  · rw [areImagesSimilar, hd]
    norm_num

/-- C9: link derivation for a private channel identity `"-1001234567890"`
with message id 55 (the `-100` prefix is stripped and a `/c/` link built)
and for the public identity `"mychannel"` with message id 10, in both the
scanner (`_createMessageLink`) and the report builder
(`createMessageLink`). -/
theorem message_link_derivation :
    createMessageLinkScanner ("-1001234567890") 55 = ("https://t.me/c/1234567890/55")
  ∧ jsEndsWith (createMessageLinkScanner ("-1001234567890") 55) ("/c/1234567890/55") = true
  ∧ createMessageLinkScanner ("mychannel") 10 = ("https://t.me/mychannel/10")
  ∧ jsEndsWith (createMessageLinkScanner ("mychannel") 10) ("/mychannel/10") = true
  ∧ createMessageLinkAnalyzer ("-1001234567890") 55 none = ("https://t.me/c/1234567890/55")
  ∧ createMessageLinkAnalyzer ("mychannel") 10 none = ("https://t.me/mychannel/10") := by
  refine ⟨?_, ?_, ?_, ?_, ?_, ?_⟩ <;> decide

/-- A concrete image record used by the witnesses below. -/
def mkRec (fid hash : String) (mid ts : Int) (addedAt : Nat) : ImageRec :=
  { fileId := fid, hash := hash, messageId := mid, chatId := 0, userId := 0,
    fileSize := 0, width := 0, height := 0, timestamp := ts, source := ("s"),
    addedAt := addedAt, channelUsername := none, messageLink := none }

/-- C8: the claim states that every store operation other than `load` fails
with `NotLoaded` before `load` is called. Counterexample on the fresh store:
`findSimilarImages` succeeds (returning `[]`), `getAllImages` succeeds, and
`removeImage` does fail — but with a `null`-handle `TypeError`, not the
`NotLoaded` error (`База данных не загружена`) that only `addImage`
raises. -/
theorem notLoaded_counterexample :
    findSimilarImages initDB ("x")
        (fun a b => areImagesSimilar hashDifferenceThresholdDefault a b) = some []
  ∧ getAllImages initDB = []
  ∧ removeImage initDB ("f") = (initDB, .error ("TypeError: this.db is null"))
  ∧ ("TypeError: this.db is null") ≠ ("База данных не загружена") :=
  ⟨rfl, rfl, rfl, by decide⟩

/-- C8 (amended): before `load`, only `addImage` performs the loaded check
and fails with `NotLoaded`; `findSimilarImages` and `getAllImages` read the
(empty) in-memory cache without any check; `removeImage` and `clearImages`
fail only because the SQLite handle is still `null`. No operation mutates
the store. -/
theorem preload_operations (maxI : Nat) (s : DBState) (info : ImageRec)
    (fid hash : String) (f : String → String → Option Bool)
    (hl : s.loaded = false) (hsq : s.useSqlite = true) (hdb : s.dbInit = false) :
    addImage maxI s info = (s, .error ("База данных не загружена"))
  ∧ removeImage s fid = (s, .error ("TypeError: this.db is null"))
  ∧ clearImages s = (s, .error ("TypeError: this.db is null"))
  ∧ getAllImages s = s.images
  ∧ (s.images = [] → findSimilarImages s hash f = some []) := by
  refine ⟨?_, ?_, ?_, rfl, ?_⟩
  · rw [addImage, if_pos hl]
  · rw [removeImage, if_pos (by simp [hsq]), if_pos hdb]
  · rw [clearImages, if_pos (by simp [hsq]), if_pos hdb]
  · intro hempty
    rw [findSimilarImages, hempty]
    rfl

/-- C8 witness: the amended pre-load behaviour evaluated on the fresh
store. -/
theorem preload_operations_witness :
    (initDB.loaded = false ∧ initDB.useSqlite = true ∧ initDB.dbInit = false)
  ∧ addImage 100 initDB (mkRec ("a") ("h") 1 1 0)
      = (initDB, .error ("База данных не загружена")) :=
  ⟨⟨rfl, rfl, rfl⟩,
    (preload_operations 100 initDB (mkRec ("a") ("h") 1 1 0) ("f") ("h")
      (fun a b => some (a == b)) rfl rfl rfl).1⟩

/-- C5: while a scan is running (`isScanning = true`), both `scanChannel`
and `scanEntireChannelWithoutDownload` immediately return the non-fatal
`Busy` result (`success: false`, `Сканирование уже выполняется`) and leave
the scanner state and the store untouched — for every possible scan body
and environment. -/
theorem busy_guard (st : ScannerState) (db : DBState) (h : st.isScanning = true) :
    (∀ body, scanChannel st db body = (busyReturn, st, db))
  ∧ (∀ env maxI channelId batchSize cooldown,
      scanEntireChannelWithoutDownload env maxI st db channelId batchSize cooldown
        = (busyReturn, st, db)) := by
  constructor
  · intro body
    rw [scanChannel, if_pos h]
  · intro env maxI channelId batchSize cooldown
    rw [scanEntireChannelWithoutDownload, if_pos h]

/-- C5 witness: the busy guard evaluated on a concrete scanning state with a
concrete body. -/
theorem busy_guard_witness :
    (({ isScanning := true, processedMessageIds := [] } : ScannerState).isScanning = true)
  ∧ scanChannel { isScanning := true, processedMessageIds := [] } initDB
      (fun st2 db2 => .ok ⟨0, 0, 0, [], 0, ("botapi")⟩ st2 db2)
      = (busyReturn, { isScanning := true, processedMessageIds := [] }, initDB) :=
  ⟨rfl, (busy_guard { isScanning := true, processedMessageIds := [] } initDB rfl).1 _⟩

/-- C4: on a loaded store (default SQLite path), `addImage` with a fresh
`fileId` returns `true` and grows the durable table by exactly one row,
while a repeated `addImage` with an already-present `fileId` is a complete
no-op that returns `false`. -/
theorem addImage_idempotent (maxI : Nat) (s : DBState) (info : ImageRec)
    (hl : s.loaded = true) (hsq : s.useSqlite = true) :
    ((∀ r ∈ s.durable, r.fileId ≠ info.fileId) →
      ∃ s2, addImage maxI s info = (s2, .ok true)
        ∧ s2.durable.length = s.durable.length + 1)
  ∧ ((∃ r ∈ s.durable, r.fileId = info.fileId) →
      addImage maxI s info = (s, .ok false)) := by
  have hnl : ¬ (s.loaded = false) := by simp [hl]
  constructor
  · intro hfresh
    have hany : s.durable.any (fun r => r.fileId == info.fileId) = false := by
      simp only [List.any_eq_false, beq_iff_eq]
      exact hfresh
    rw [addImage, if_neg hnl, if_pos (by simp [hsq]), hany]
    exact ⟨_, rfl, by simp⟩
  · intro hdup
    have hany : s.durable.any (fun r => r.fileId == info.fileId) = true := by
      simp only [List.any_eq_true, beq_iff_eq]
      exact hdup
    rw [addImage, if_neg hnl, if_pos (by simp [hsq]), hany]
    rfl

/-- Inserting by key grows the length by one. -/
theorem insertByKey_length (key : α → Int) (x : α) (l : List α) :
    (insertByKey key x l).length = l.length + 1 := by
  induction l with
  | nil => rfl
  | cons y t ih =>
    rw [insertByKey]
    split
    · simp [ih]
    · simp

/-- The stable sort preserves the length. -/
theorem sortByKey_length (key : α → Int) (l : List α) :
    (sortByKey key l).length = l.length := by
  induction l with
  | nil => rfl
  | cons y t ih =>
    rw [sortByKey, insertByKey_length, ih]
    simp

/-- Length of the cache after the eviction step of `addImage`
(`_.sortBy(...).slice(-max)` guarded by `length > max`). -/
theorem trimCache_length (maxI : Nat) (hmax : 1 ≤ maxI) (l : List ImageRec) :
    (if maxI < l.length then
      jsSliceLast (sortByKey (fun r => (r.addedAt : Int)) l) maxI
    else l).length = min l.length maxI := by
  split
  · rename_i hc
    rw [jsSliceLast, if_neg (by omega)]
    rw [List.length_drop, sortByKey_length]
    omega
  · rename_i hc
    omega

/-- State equations of a fresh `addImage` on a loaded SQLite store. -/
theorem addImage_fresh (maxI : Nat) (s : DBState) (info : ImageRec)
    (hl : s.loaded = true) (hsq : s.useSqlite = true)
    (hfresh : ∀ r ∈ s.durable, r.fileId ≠ info.fileId) (hmax : 1 ≤ maxI) :
    (addImage maxI s info).1.durable = s.durable ++ [info]
  ∧ (addImage maxI s info).1.images.length = min (s.images.length + 1) maxI
  ∧ (addImage maxI s info).1.loaded = true
  ∧ (addImage maxI s info).1.useSqlite = true
  ∧ (addImage maxI s info).2 = .ok true := by
  have hnl : ¬ (s.loaded = false) := by simp [hl]
  have hany : s.durable.any (fun r => r.fileId == info.fileId) = false := by
    simp only [List.any_eq_false, beq_iff_eq]
    exact hfresh
  rw [addImage, if_neg hnl, if_pos (by simp [hsq]), hany]
  refine ⟨rfl, ?_, hl, hsq, rfl⟩
  show (if maxI < (s.images ++ [info]).length then
      jsSliceLast (sortByKey (fun r => (r.addedAt : Int)) (s.images ++ [info])) maxI
    else s.images ++ [info]).length = min (s.images.length + 1) maxI
  rw [trimCache_length maxI hmax]
  simp

/-- Durable growth, cache-length evolution and flag preservation of a
sequence of fresh `addImage` calls. -/
theorem addAll_fresh_spec (maxI : Nat) (hmax : 1 ≤ maxI) :
    ∀ (l : List ImageRec) (s : DBState),
      s.loaded = true → s.useSqlite = true → s.images.length ≤ maxI →
      (l.map (fun i => i.fileId)).Nodup →
      (∀ i ∈ l, ∀ r ∈ s.durable, r.fileId ≠ i.fileId) →
      (addAll maxI s l).durable = s.durable ++ l
      ∧ (addAll maxI s l).images.length = min (s.images.length + l.length) maxI
      ∧ (addAll maxI s l).loaded = true ∧ (addAll maxI s l).useSqlite = true
  | [], s => by
    intro hl hsq hlen _ _
    refine ⟨by simp [addAll], ?_, hl, hsq⟩
    simp [addAll]
    omega
  | info :: rest, s => by
    intro hl hsq hlen hnodup hfresh
    have hstep := addImage_fresh maxI s info hl hsq
      (fun r hr => hfresh info (by simp) r hr) hmax
    have hrestfresh : ∀ i ∈ rest, ∀ r ∈ (addImage maxI s info).1.durable,
        r.fileId ≠ i.fileId := by
      intro i hi r hr
      rw [hstep.1] at hr
      rcases List.mem_append.1 hr with hr | hr
      · exact hfresh i (by simp [hi]) r hr
      · have hre : r = info := by simpa using hr
        have hni : info.fileId ∉ rest.map (fun j => j.fileId) := by
          have h2 := hnodup
          simp only [List.map_cons, List.nodup_cons] at h2
          exact h2.1
        rw [hre]
        intro hcon
        exact hni (by
          rw [hcon]
          exact List.mem_map.2 ⟨i, hi, rfl⟩)
    have hrest := addAll_fresh_spec maxI hmax rest (addImage maxI s info).1
      (hstep.2.2.1) (hstep.2.2.2.1)
      (by rw [hstep.2.1]; omega)
      (by
        have := hnodup
        simp only [List.map_cons, List.nodup_cons] at this
        exact this.2)
      hrestfresh
    have haddall : addAll maxI s (info :: rest)
        = addAll maxI (addImage maxI s info).1 rest := rfl
    rw [haddall]
    refine ⟨?_, ?_, hrest.2.2.1, hrest.2.2.2⟩
    · rw [hrest.1, hstep.1]
      simp
    · rw [hrest.2.1, hstep.2.1]
      simp only [List.length_cons]
      omega

/-- C1 (amended): after `N > maxImagesInMemory ≥ 1` records with pairwise
fresh identities are added to a loaded store, the in-memory working set
holds exactly `maxImagesInMemory` records and the durable SQLite table
holds all `N` (eviction never deletes durably) — but `getAllImages()`
returns the in-memory working set, so it reports `maxImagesInMemory`
records, not all `N`. -/
theorem eviction_bound (maxI : Nat) (s : DBState) (l : List ImageRec)
    (hmax : 1 ≤ maxI) (hl : s.loaded = true) (hsq : s.useSqlite = true)
    (hstart : s.images.length ≤ maxI)
    (hnodup : (l.map (fun i => i.fileId)).Nodup)
    (hfresh : ∀ i ∈ l, ∀ r ∈ s.durable, r.fileId ≠ i.fileId)
    (hN : maxI < l.length) :
    (addAll maxI s l).images.length = maxI
  ∧ (addAll maxI s l).durable.length = s.durable.length + l.length
  ∧ getAllImages (addAll maxI s l) = (addAll maxI s l).images := by
  have h := addAll_fresh_spec maxI hmax l s hl hsq hstart hnodup hfresh
  refine ⟨?_, ?_, rfl⟩
  · rw [h.2.1]
    omega
  · rw [h.1]
    simp

/-- C1 witness: the amended eviction bound evaluated with
`maxImagesInMemory = 1` and two fresh records. -/
theorem eviction_bound_witness :
    ((loadDB initDB).loaded = true ∧ (loadDB initDB).images.length ≤ 1
      ∧ 1 < [mkRec ("a") ("h1") 1 1 0, mkRec ("b") ("h2") 2 2 1].length)
  ∧ ((addAll 1 (loadDB initDB) [mkRec ("a") ("h1") 1 1 0,
        mkRec ("b") ("h2") 2 2 1]).images.length = 1
      ∧ (addAll 1 (loadDB initDB) [mkRec ("a") ("h1") 1 1 0,
          mkRec ("b") ("h2") 2 2 1]).durable.length
        = (loadDB initDB).durable.length
          + [mkRec ("a") ("h1") 1 1 0, mkRec ("b") ("h2") 2 2 1].length
      ∧ getAllImages (addAll 1 (loadDB initDB) [mkRec ("a") ("h1") 1 1 0,
          mkRec ("b") ("h2") 2 2 1])
        = (addAll 1 (loadDB initDB) [mkRec ("a") ("h1") 1 1 0,
            mkRec ("b") ("h2") 2 2 1]).images) :=
  ⟨⟨rfl, by decide, by decide⟩,
    eviction_bound 1 (loadDB initDB)
      [mkRec ("a") ("h1") 1 1 0, mkRec ("b") ("h2") 2 2 1]
      (by decide) rfl rfl (by decide) (by decide) (by decide) (by decide)⟩

/-- C1: the claim additionally asserts that `getAll()` still returns all `N`
records after eviction. Counterexample with `maxImagesInMemory = 1`: two
records with fresh identities are both added successfully (`N = 2`, durable
table holds 2 rows), yet `getAllImages()` — which reads the in-memory cache,
not the durable table — returns only 1 record. -/
theorem eviction_getAll_counterexample :
    (addImage 1 (loadDB initDB) (mkRec ("a") ("h1") 1 1 0)).2 = .ok true
  ∧ (addImage 1 (addImage 1 (loadDB initDB) (mkRec ("a") ("h1") 1 1 0)).1
      (mkRec ("b") ("h2") 2 2 1)).2 = .ok true
  ∧ (addImage 1 (addImage 1 (loadDB initDB) (mkRec ("a") ("h1") 1 1 0)).1
      (mkRec ("b") ("h2") 2 2 1)).1.durable.length = 2
  ∧ (getAllImages (addImage 1 (addImage 1 (loadDB initDB)
      (mkRec ("a") ("h1") 1 1 0)).1 (mkRec ("b") ("h2") 2 2 1)).1).length = 1
  ∧ (1 : Nat) ≠ 2 :=
  ⟨rfl, rfl, rfl, rfl, by decide⟩

/-- C4 witness: a fresh then a repeated `addImage` of the same record on the
freshly loaded empty store. -/
theorem addImage_idempotent_witness :
    ((loadDB initDB).loaded = true)
  ∧ (∃ s2, addImage 100 (loadDB initDB) (mkRec ("a") ("h") 1 1 0) = (s2, .ok true)
      ∧ s2.durable.length = (loadDB initDB).durable.length + 1)
  ∧ addImage 100 (addImage 100 (loadDB initDB) (mkRec ("a") ("h") 1 1 0)).1
      (mkRec ("a") ("h2") 2 2 1)
      = ((addImage 100 (loadDB initDB) (mkRec ("a") ("h") 1 1 0)).1, .ok false) :=
  ⟨rfl,
    (addImage_idempotent 100 (loadDB initDB) (mkRec ("a") ("h") 1 1 0) rfl rfl).1
      (by decide),
    (addImage_idempotent 100 (addImage 100 (loadDB initDB) (mkRec ("a") ("h") 1 1 0)).1
      (mkRec ("a") ("h2") 2 2 1) rfl rfl).2 (by decide)⟩

/-- Invariant of the inner grouping loop: ids already claimed by finished
groups (`L`) or by the open group stay distinct and marked processed; the
loop only appends fresh records to the open group and grows the processed
set. -/
theorem groupInnerLoop_invariant (thr : ℚ) (curHash : String) (i : Nat)
    (L : List Int) :
    ∀ (enum : List (Nat × ImageRec)) (processed : List Int) (group : List ImageRec)
      (processed2 : List Int) (group2 : List ImageRec),
      groupInnerLoop thr curHash i enum processed group = some (processed2, group2) →
      (L ++ group.map (fun r => r.messageId)).Nodup →
      (∀ id ∈ L ++ group.map (fun r => r.messageId), id ∈ processed) →
      (L ++ group2.map (fun r => r.messageId)).Nodup
      ∧ (∀ id ∈ L ++ group2.map (fun r => r.messageId), id ∈ processed2)
      ∧ (∀ id ∈ processed, id ∈ processed2)
      ∧ ∃ tail, group2 = group ++ tail
  | [], processed, group, processed2, group2 => by
    intro heq hnd hsub
    rw [groupInnerLoop] at heq
    obtain ⟨h1, h2⟩ : processed = processed2 ∧ group = group2 := by
      have := Option.some.inj heq
      exact ⟨congrArg Prod.fst this, congrArg Prod.snd this⟩
    subst h1; subst h2
    exact ⟨hnd, hsub, fun id h => h, [], by simp⟩
  | (j, img) :: rest, processed, group, processed2, group2 => by
    intro heq hnd hsub
    rw [groupInnerLoop] at heq
    by_cases hji : j = i
    · rw [if_pos hji] at heq
      exact groupInnerLoop_invariant thr curHash i L rest processed group
        processed2 group2 heq hnd hsub
    · rw [if_neg hji] at heq
      by_cases hmem : img.messageId ∈ processed
      · rw [if_pos hmem] at heq
        exact groupInnerLoop_invariant thr curHash i L rest processed group
          processed2 group2 heq hnd hsub
      · rw [if_neg hmem] at heq
        cases hsimv : calculateSimilarityPercentage curHash img.hash with
        | none => rw [hsimv] at heq; exact absurd heq (by simp)
        | some similarity =>
          rw [hsimv] at heq
          replace heq : (if thr ≤ similarity then
              groupInnerLoop thr curHash i rest (processed ++ [img.messageId])
                (group ++ [img])
            else groupInnerLoop thr curHash i rest processed group)
              = some (processed2, group2) := heq
          by_cases hthr : thr ≤ similarity
          · rw [if_pos hthr] at heq
            have hfreshid : img.messageId ∉ L ++ group.map (fun r => r.messageId) :=
              fun hin => hmem (hsub _ hin)
            have hnd2 : (L ++ (group ++ [img]).map (fun r => r.messageId)).Nodup := by
              have : L ++ (group ++ [img]).map (fun r => r.messageId)
                  = (L ++ group.map (fun r => r.messageId)) ++ [img.messageId] := by
                simp
              rw [this, List.nodup_append]
              refine ⟨hnd, List.nodup_singleton _, ?_⟩
              intro a ha hb
              have : a = img.messageId := by simpa using hb
              subst this
              exact hfreshid ha
            have hsub2 : ∀ id ∈ L ++ (group ++ [img]).map (fun r => r.messageId),
                id ∈ processed ++ [img.messageId] := by
              intro id hid
              rcases List.mem_append.1 hid with h | h
              · exact List.mem_append.2 (.inl (hsub _ (List.mem_append.2 (.inl h))))
              · simp only [List.map_append, List.mem_append] at h
                rcases h with h | h
                · exact List.mem_append.2
                    (.inl (hsub _ (List.mem_append.2 (.inr h))))
                · exact List.mem_append.2 (.inr (by simpa using h))
            have hrec := groupInnerLoop_invariant thr curHash i L rest
              (processed ++ [img.messageId]) (group ++ [img]) processed2 group2
              heq hnd2 hsub2
            refine ⟨hrec.1, hrec.2.1, ?_, ?_⟩
            · intro id hid
              exact hrec.2.2.1 id (List.mem_append.2 (.inl hid))
            · obtain ⟨tail, htail⟩ := hrec.2.2.2
              exact ⟨img :: tail, by simp [htail]⟩
          · rw [if_neg hthr] at heq
            exact groupInnerLoop_invariant thr curHash i L rest processed group
              processed2 group2 heq hnd hsub

/-- Invariant of the outer grouping loop: the ids of all emitted groups stay
pairwise distinct and marked processed, and every emitted group has at least
two members. -/
theorem groupOuterLoop_invariant (thr : ℚ) (allEnum : List (Nat × ImageRec)) :
    ∀ (l : List (Nat × ImageRec)) (processed : List Int)
      (groups out : List (List ImageRec)),
      groupOuterLoop thr allEnum l processed groups = some out →
      (groups.flatten.map (fun r => r.messageId)).Nodup →
      (∀ id ∈ groups.flatten.map (fun r => r.messageId), id ∈ processed) →
      (∀ g ∈ groups, 2 ≤ g.length) →
      ((out.flatten.map (fun r => r.messageId)).Nodup
        ∧ ∀ g ∈ out, 2 ≤ g.length)
  | [], processed, groups, out => by
    intro heq hnd hsub hlen
    rw [groupOuterLoop] at heq
    have : groups = out := Option.some.inj heq
    subst this
    exact ⟨hnd, hlen⟩
  | (i, cur) :: rest, processed, groups, out => by
    intro heq hnd hsub hlen
    rw [groupOuterLoop] at heq
    by_cases hmem : cur.messageId ∈ processed
    · rw [if_pos hmem] at heq
      exact groupOuterLoop_invariant thr allEnum rest processed groups out heq hnd hsub hlen
    · rw [if_neg hmem] at heq
      cases hinner : groupInnerLoop thr cur.hash i allEnum
          (processed ++ [cur.messageId]) [cur] with
      | none => rw [hinner] at heq; exact absurd heq (by simp)
      | some pg =>
        rw [hinner] at heq
        obtain ⟨processed2, group2⟩ := pg
        replace heq : groupOuterLoop thr allEnum rest processed2
            (if 1 < group2.length then groups ++ [group2] else groups)
              = some out := heq
        have hnd0 : (groups.flatten.map (fun r => r.messageId)
            ++ [cur].map (fun r => r.messageId)).Nodup := by
          simp only [List.map_cons, List.map_nil]
          rw [List.nodup_append]
          refine ⟨hnd, List.nodup_singleton _, ?_⟩
          intro a ha hb
          have : a = cur.messageId := by simpa using hb
          subst this
          exact hmem (hsub _ ha)
        have hsub0 : ∀ id ∈ groups.flatten.map (fun r => r.messageId)
            ++ [cur].map (fun r => r.messageId), id ∈ processed ++ [cur.messageId] := by
          intro id hid
          rcases List.mem_append.1 hid with h | h
          · exact List.mem_append.2 (.inl (hsub _ h))
          · exact List.mem_append.2 (.inr (by simpa using h))
        have hrec := groupInnerLoop_invariant thr cur.hash i
          (groups.flatten.map (fun r => r.messageId)) allEnum
          (processed ++ [cur.messageId]) [cur] processed2 group2 hinner hnd0 hsub0
        by_cases hbig : 1 < group2.length
        · rw [if_pos hbig] at heq
          have hjoin : (groups ++ [group2]).flatten = groups.flatten ++ group2 := by
            simp
          refine groupOuterLoop_invariant thr allEnum rest processed2
            (groups ++ [group2]) out heq ?_ ?_ ?_
          · rw [hjoin, List.map_append]
            exact hrec.1
          · rw [hjoin, List.map_append]
            exact hrec.2.1
          · intro g hg
            rcases List.mem_append.1 hg with h | h
            · exact hlen g h
            · have : g = group2 := by simpa using h
              subst this
              omega
        · rw [if_neg hbig] at heq
          refine groupOuterLoop_invariant thr allEnum rest processed2 groups out heq hnd ?_ hlen
          intro id hid
          exact hrec.2.1 id (List.mem_append.2 (.inl hid))

/-- C6: whenever `groupSimilarImages` completes (no length-mismatch throw),
no record id is ever assigned to two different groups — the ids across all
emitted groups are pairwise distinct — and every emitted group has at least
two members. -/
theorem groupSimilarImages_partition (images : List ImageRec) (thr : ℚ)
    (groups : List (List ImageRec))
    (h : groupSimilarImages images thr = some groups) :
    ((groups.flatten.map (fun r => r.messageId)).Nodup)
  ∧ ∀ g ∈ groups, 2 ≤ g.length := by
  have := groupOuterLoop_invariant thr images.enum images.enum [] [] groups h
    (by simp) (by simp) (by simp)
  exact this

/-- Concrete run of `groupSimilarImages`: two records with identical hashes
form one group at threshold 95. -/
theorem groupSimilarImages_example :
    groupSimilarImages [mkRec ("x") ("aa") 1 1 0, mkRec ("y") ("aa") 2 2 1] 95
      = some [[mkRec ("x") ("aa") 1 1 0, mkRec ("y") ("aa") 2 2 1]] := by
  have hsim : calculateSimilarityPercentage ("aa") ("aa") = some 100 := by
    have hc : hashDiffCount ("aa").data ("aa").data = 0 := by decide
    have hl2 : ("aa" : String).length = 2 := by decide
    rw [calculateSimilarityPercentage, calculateHashDistance, if_pos rfl, hc, hl2]
    norm_num
  have henum : ([mkRec ("x") ("aa") 1 1 0, mkRec ("y") ("aa") 2 2 1]
      : List ImageRec).enum = [(0, mkRec ("x") ("aa") 1 1 0),
        (1, mkRec ("y") ("aa") 2 2 1)] := by decide
  rw [groupSimilarImages, henum]
  rw [groupOuterLoop, if_neg (by decide)]
  rw [groupInnerLoop, if_pos rfl, groupInnerLoop, if_neg (by decide),
    if_neg (by decide)]
  rw [show calculateSimilarityPercentage (mkRec ("x") ("aa") 1 1 0).hash
      (mkRec ("y") ("aa") 2 2 1).hash = some 100 from hsim]
  rfl

/-- C6 witness: the partition property evaluated on the concrete run
above. -/
theorem groupSimilarImages_partition_witness :
    ((([[mkRec ("x") ("aa") 1 1 0, mkRec ("y") ("aa") 2 2 1]]
        : List (List ImageRec)).flatten.map (fun r => r.messageId)).Nodup)
  ∧ ∀ g ∈ ([[mkRec ("x") ("aa") 1 1 0, mkRec ("y") ("aa") 2 2 1]]
      : List (List ImageRec)), 2 ≤ g.length :=
  groupSimilarImages_partition [mkRec ("x") ("aa") 1 1 0, mkRec ("y") ("aa") 2 2 1]
    95 [[mkRec ("x") ("aa") 1 1 0, mkRec ("y") ("aa") 2 2 1]]
    groupSimilarImages_example

/-- Two strings with equal character data are equal. -/
theorem stringDataInj {a b : String} (h : a.data = b.data) : a = b := by
  cases a
  cases b
  exact congrArg String.mk h

/-- For equal-length lists, a zero mismatch count means the lists are
equal. -/
theorem zip_count_zero_iff : ∀ (l1 l2 : List Char), l1.length = l2.length →
    ((((l1.zip l2).filter (fun p => !(p.1 == p.2))).length = 0) ↔ l1 = l2)
  | [], [] => by simp
  | [], _ :: _ => by simp
  | _ :: _, [] => by simp
  | a :: t1, b :: t2 => by
    intro hlen
    have htl : t1.length = t2.length := by simpa using hlen
    by_cases hab : (a == b) = true
    · have hab2 : a = b := by simpa using hab
      rw [List.zip_cons_cons, List.filter_cons, if_neg (by simp [hab])]
      rw [zip_count_zero_iff t1 t2 htl]
      simp [hab2]
    · have habf : (a == b) = false := Bool.eq_false_iff.mpr hab
      rw [List.zip_cons_cons, List.filter_cons, if_pos (by simp [habf])]
      constructor
      · intro h
        exact absurd h (by simp)
      · intro h
        injection h with h1 h2
        rw [h1] at habf
        simp at habf

/-- The positional difference count never exceeds the hash length. -/
theorem hashDiffCount_le (l1 l2 : List Char) : hashDiffCount l1 l2 ≤ l1.length := by
  calc hashDiffCount l1 l2
      ≤ (List.range l1.length).length := List.length_filter_le _ _
    _ = l1.length := List.length_range _

/-- C10: for equal-length non-empty signatures of length `L`,
`calculateSimilarityPercentage` always lies in `[100 - 2500/L, 100]` and
equals 100 exactly for identical signatures: the percentage-valued distance
is normalised a second time by `L * 4`, so the reported similarity can never
fall below `100 - 2500/L` (about 60.94% for 64-character signatures),
however different the signatures are. -/
theorem calculateSimilarityPercentage_bounds (h1 h2 : String)
    (hlen : h1.length = h2.length) (hpos : 0 < h1.length) :
    ∃ q, calculateSimilarityPercentage h1 h2 = some q
      ∧ 100 - 2500 / (h1.length : ℚ) ≤ q ∧ q ≤ 100
      ∧ (q = 100 ↔ h1 = h2) := by
  have hdist : calculateHashDistance h1 h2
      = some ((hashDiffCount h1.data h2.data : ℚ) / (h1.length : ℚ) * 100) := by
    rw [calculateHashDistance, if_pos hlen]
  have hq : calculateSimilarityPercentage h1 h2
      = some (100 - ((hashDiffCount h1.data h2.data : ℚ) / (h1.length : ℚ) * 100)
          / ((h1.length : ℚ) * 4) * 100) := by
    rw [calculateSimilarityPercentage, hdist]
    rfl
  have hL : (0 : ℚ) < (h1.length : ℚ) := by exact_mod_cast hpos
  have hLne : (h1.length : ℚ) ≠ 0 := ne_of_gt hL
  have hcL : (hashDiffCount h1.data h2.data : ℚ) ≤ (h1.length : ℚ) := by
    have := hashDiffCount_le h1.data h2.data
    exact_mod_cast this
  have hc0 : (0 : ℚ) ≤ (hashDiffCount h1.data h2.data : ℚ) := by positivity
  have hsimp : ((hashDiffCount h1.data h2.data : ℚ) / (h1.length : ℚ) * 100)
      / ((h1.length : ℚ) * 4) * 100
      = (hashDiffCount h1.data h2.data : ℚ) * 2500 / ((h1.length : ℚ) ^ 2) := by
    field_simp
    ring
  refine ⟨_, hq, ?_, ?_, ?_⟩
  · rw [hsimp]
    have : (hashDiffCount h1.data h2.data : ℚ) * 2500 / ((h1.length : ℚ) ^ 2)
        ≤ 2500 / (h1.length : ℚ) := by
      rw [div_le_div_iff₀ (by positivity) hL]
      nlinarith
    linarith
  · rw [hsimp]
    have : (0 : ℚ) ≤ (hashDiffCount h1.data h2.data : ℚ) * 2500 / ((h1.length : ℚ) ^ 2) := by
      positivity
    linarith
  · rw [hsimp]
    have hlend : h1.data.length = h2.data.length := hlen
    constructor
    · intro h
      have hz : (hashDiffCount h1.data h2.data : ℚ) * 2500 / ((h1.length : ℚ) ^ 2) = 0 := by
        linarith
      have hcnt : hashDiffCount h1.data h2.data = 0 := by
        field_simp at hz
        simpa using hz
      rw [hashDiffCount_eq_zip_count h1.data h2.data hlend] at hcnt
      exact stringDataInj ((zip_count_zero_iff h1.data h2.data hlend).1 hcnt)
    · intro h
      subst h
      have hcnt : hashDiffCount h1.data h1.data = 0 := by
        rw [hashDiffCount_eq_zip_count h1.data h1.data rfl]
        exact (zip_count_zero_iff h1.data h1.data rfl).2 rfl
      rw [hcnt]
      norm_num

/-- C10 witness: the bounds evaluated on the concrete 4-character pair
`"AAAA"`, `"AAAB"`. -/
theorem calculateSimilarityPercentage_bounds_witness :
    (("AAAA" : String).length = ("AAAB" : String).length
      ∧ 0 < ("AAAA" : String).length)
  ∧ (∃ q, calculateSimilarityPercentage ("AAAA") ("AAAB") = some q
      ∧ 100 - 2500 / (("AAAA" : String).length : ℚ) ≤ q ∧ q ≤ 100
      ∧ (q = 100 ↔ ("AAAA" : String) = ("AAAB" : String))) :=
  ⟨⟨by decide, by decide⟩,
    calculateSimilarityPercentage_bounds ("AAAA") ("AAAB") (by decide) (by decide)⟩

/-- Membership is preserved by keyed insertion. -/
theorem insertByKey_mem (key : α → Int) (x : α) :
    ∀ (l : List α) (a : α), a ∈ insertByKey key x l ↔ a = x ∨ a ∈ l
  | [], a => by simp [insertByKey]
  | y :: t, a => by
    rw [insertByKey]
    split
    · rw [List.mem_cons, insertByKey_mem key x t a, List.mem_cons]
      tauto
    · rw [List.mem_cons, List.mem_cons]

/-- Membership is preserved by the stable sort. -/
theorem sortByKey_mem (key : α → Int) :
    ∀ (l : List α) (a : α), a ∈ sortByKey key l ↔ a ∈ l
  | [], a => by simp [sortByKey]
  | y :: t, a => by
    rw [sortByKey, insertByKey_mem key y (sortByKey key t) a, sortByKey_mem key t a,
      List.mem_cons]

/-- Invariant step of the `hashGroups` map construction: buckets stay exactly
the filters of the records seen so far, keys stay distinct, and every seen
record has a bucket. -/
theorem hashGroupsInsert_spec (acc : List (String × List ImageRec))
    (done : List ImageRec) (img : ImageRec)
    (hbucket : ∀ p ∈ acc, p.2 = done.filter (fun r => r.hash == p.1))
    (hkeys : (acc.map Prod.fst).Nodup)
    (hcover : ∀ r ∈ done, ∃ p ∈ acc, p.1 = r.hash) :
    (∀ p ∈ hashGroupsInsert acc img,
      p.2 = (done ++ [img]).filter (fun r => r.hash == p.1))
    ∧ ((hashGroupsInsert acc img).map Prod.fst).Nodup
    ∧ (∀ r ∈ done ++ [img], ∃ p ∈ hashGroupsInsert acc img, p.1 = r.hash) := by
  rw [hashGroupsInsert]
  by_cases hany : acc.any (fun p => p.1 == img.hash) = true
  · rw [if_pos hany]
    have hfst : ∀ p : String × List ImageRec,
        (if p.1 == img.hash then (p.1, p.2 ++ [img]) else p).1 = p.1 := by
      intro p
      split <;> rfl
    refine ⟨?_, ?_, ?_⟩
    · intro p2 hp2
      obtain ⟨p, hp, hupd⟩ := List.mem_map.1 hp2
      by_cases hpe : (p.1 == img.hash) = true
      · rw [if_pos hpe] at hupd
        have hpeq : p.1 = img.hash := by simpa using hpe
        subst hupd
        show p.2 ++ [img] = (done ++ [img]).filter (fun r => r.hash == p.1)
        rw [List.filter_append, ← hbucket p hp]
        simp [hpeq]
      · rw [if_neg hpe] at hupd
        subst hupd
        rw [List.filter_append, ← hbucket p hp]
        have hne : p.1 ≠ img.hash := fun hcc => hpe (by simp [hcc])
        have : (img.hash == p.1) = false :=
          beq_eq_false_iff_ne.mpr (fun hcc => hne hcc.symm)
        simp [this]
    · have : (acc.map (fun p => if p.1 == img.hash then (p.1, p.2 ++ [img]) else p)).map
          Prod.fst = acc.map Prod.fst := by
        rw [List.map_map]
        exact List.map_congr_left (fun p _ => hfst p)
      rw [this]
      exact hkeys
    · intro r hr
      rcases List.mem_append.1 hr with hr | hr
      · obtain ⟨p, hp, hp1⟩ := hcover r hr
        exact ⟨_, List.mem_map.2 ⟨p, hp, rfl⟩, by rw [hfst p]; exact hp1⟩
      · have hrimg : r = img := by simpa using hr
        subst hrimg
        obtain ⟨p, hp, hpe⟩ := List.any_eq_true.1 hany
        refine ⟨_, List.mem_map.2 ⟨p, hp, rfl⟩, ?_⟩
        rw [hfst p]
        simpa using hpe
  · rw [if_neg hany]
    have hnokey : ∀ p ∈ acc, p.1 ≠ img.hash := by
      intro p hp
      have := List.any_eq_false.1 (Bool.eq_false_iff.mpr hany) p hp
      simpa using this
    refine ⟨?_, ?_, ?_⟩
    · intro p2 hp2
      rcases List.mem_append.1 hp2 with hp | hp
      · rw [List.filter_append, ← hbucket p2 hp]
        have : (img.hash == p2.1) = false :=
          beq_eq_false_iff_ne.mpr (fun hcc => hnokey p2 hp hcc.symm)
        simp [this]
      · have hp2eq : p2 = (img.hash, [img]) := by simpa using hp
        subst hp2eq
        rw [List.filter_append]
        have hdone : done.filter (fun r => r.hash == img.hash) = [] := by
          rw [List.filter_eq_nil_iff]
          intro r hr hcon
          obtain ⟨p, hp, hp1⟩ := hcover r hr
          exact hnokey p hp (by rw [hp1]; simpa using hcon)
        simp [hdone]
    · rw [List.map_append]
      simp only [List.map_cons, List.map_nil]
      rw [List.nodup_append]
      refine ⟨hkeys, List.nodup_singleton _, ?_⟩
      intro a ha hb
      have : a = img.hash := by simpa using hb
      subst this
      obtain ⟨p, hp, hp1⟩ := List.mem_map.1 ha
      exact hnokey p hp hp1
    · intro r hr
      rcases List.mem_append.1 hr with hr | hr
      · obtain ⟨p, hp, hp1⟩ := hcover r hr
        exact ⟨p, List.mem_append.2 (.inl hp), hp1⟩
      · have hrimg : r = img := by simpa using hr
        refine ⟨(img.hash, [img]), List.mem_append.2 (.inr (by simp)), ?_⟩
        rw [hrimg]

/-- Fold form of the `hashGroups` invariant. -/
theorem hashGroupsFold_spec :
    ∀ (l : List ImageRec) (acc : List (String × List ImageRec)) (done : List ImageRec),
      (∀ p ∈ acc, p.2 = done.filter (fun r => r.hash == p.1)) →
      ((acc.map Prod.fst).Nodup) →
      (∀ r ∈ done, ∃ p ∈ acc, p.1 = r.hash) →
      (∀ p ∈ l.foldl hashGroupsInsert acc,
        p.2 = (done ++ l).filter (fun r => r.hash == p.1))
      ∧ ((l.foldl hashGroupsInsert acc).map Prod.fst).Nodup
      ∧ (∀ r ∈ done ++ l, ∃ p ∈ l.foldl hashGroupsInsert acc, p.1 = r.hash)
  | [], acc, done => by
    intro hbucket hkeys hcover
    rw [List.foldl_nil]
    refine ⟨?_, hkeys, ?_⟩
    · intro p hp
      rw [List.append_nil]
      exact hbucket p hp
    · intro r hr
      rw [List.append_nil] at hr
      exact hcover r hr
  | img :: rest, acc, done => by
    intro hbucket hkeys hcover
    have hstep := hashGroupsInsert_spec acc done img hbucket hkeys hcover
    have hrec := hashGroupsFold_spec rest (hashGroupsInsert acc img) (done ++ [img])
      hstep.1 hstep.2.1 hstep.2.2
    rw [List.foldl_cons]
    have hassoc : (done ++ [img]) ++ rest = done ++ (img :: rest) := by simp
    refine ⟨?_, hrec.2.1, ?_⟩
    · intro p hp
      rw [← hassoc]
      exact hrec.1 p hp
    · intro r hr
      exact hrec.2.2 r (by rw [hassoc]; exact hr)

/-- The `hashGroups` map of the lightweight scan: each bucket is exactly the
filter of the input by its key, keys are distinct, and every record has a
bucket. -/
theorem buildHashGroups_spec (l : List ImageRec) :
    (∀ p ∈ buildHashGroups l, p.2 = l.filter (fun r => r.hash == p.1))
    ∧ ((buildHashGroups l).map Prod.fst).Nodup
    ∧ (∀ r ∈ l, ∃ p ∈ buildHashGroups l, p.1 = r.hash) := by
  have h := hashGroupsFold_spec l [] [] (by simp) (by simp) (by simp)
  rw [buildHashGroups]
  refine ⟨?_, h.2.1, ?_⟩
  · intro p hp
    have := h.1 p hp
    rwa [List.nil_append] at this
  · intro r hr
    exact h.2.2 r (by rwa [List.nil_append])

/-- Shape of the duplicate-group list computed by the lightweight scan over a
snapshot `l`: every reported group has at least two members, its member count
is its `count`, its members are exactly the snapshot records carrying the
group's signature, and every signature occurring at least twice in the
snapshot is reported as a group. -/
theorem lightweightDuplicateGroups_spec (l : List ImageRec) :
    (∀ g ∈ lightweightDuplicateGroups l,
      2 ≤ g.count ∧ g.images.length = g.count
      ∧ ∀ x, x ∈ g.images ↔ (x ∈ l ∧ x.hash = g.hash))
    ∧ (∀ x ∈ l, 2 ≤ (l.filter (fun y => y.hash == x.hash)).length →
        ∃ g ∈ lightweightDuplicateGroups l, g.hash = x.hash) := by
  have hspec := buildHashGroups_spec l
  constructor
  · intro g hg
    rw [lightweightDuplicateGroups, sortByKey_mem] at hg
    obtain ⟨p, hp, hpg⟩ := List.mem_map.1 hg
    have hpfilter := List.mem_filter.1 hp
    have hbucket := hspec.1 p hpfilter.1
    have hbig : 1 < p.2.length := by simpa using hpfilter.2
    subst hpg
    refine ⟨by simpa using hbig, ?_, ?_⟩
    · show (sortByKey (fun r => r.timestamp) p.2).length = p.2.length
      exact sortByKey_length _ _
    · intro x
      show x ∈ sortByKey (fun r => r.timestamp) p.2 ↔ (x ∈ l ∧ x.hash = p.1)
      rw [sortByKey_mem, hbucket, List.mem_filter]
      simp
  · intro x hx hcnt
    obtain ⟨p, hp, hp1⟩ := hspec.2.2 x hx
    have hbucket := hspec.1 p hp
    have hbig : 1 < p.2.length := by
      rw [hbucket, hp1]
      omega
    refine ⟨⟨p.1, sortByKey (fun r => r.timestamp) p.2, p.2.length⟩, ?_, hp1⟩
    rw [lightweightDuplicateGroups, sortByKey_mem]
    exact List.mem_map.2 ⟨p, List.mem_filter.2 ⟨hp, by simpa using hbig⟩, rfl⟩

/-- Shape of a completed lightweight scan: it succeeds with the
duplicate-group analysis of the provenance-filtered final snapshot. -/
theorem scan_success_shape (env : ScanEnv) (maxI : Nat) (st : ScannerState)
    (db : DBState) (channelId : String) (batchSize cooldown : Nat)
    (hscan : st.isScanning = false)
    (hchan : (if channelId = ("") then env.cfgChannelId else channelId) ≠ ("")) :
    ∃ r, (scanEntireChannelWithoutDownload env maxI st db channelId batchSize
        cooldown).1.results = some r
      ∧ r.duplicateGroups = lightweightDuplicateGroups
          ((getAllImages (scanEntireChannelWithoutDownload env maxI st db channelId
            batchSize cooldown).2.2).filter
            (fun img => img.source == ("channel_scan_lightweight")))
      ∧ (scanEntireChannelWithoutDownload env maxI st db channelId batchSize
          cooldown).1.success = true := by
  rw [scanEntireChannelWithoutDownload]
  rw [if_neg (by simp [hscan]), if_neg hchan]
  exact ⟨_, rfl, rfl, rfl⟩

/-- C3 (amended): the claim states the groups reported at scan completion
equal `groupSimilarImages` at the configured similarity threshold over the
durable snapshot filtered to the provenance tag. What the code actually
reports — once, after the batch loop, never incrementally — is the grouping
of the **in-memory** snapshot (`getAllImages`, the working set) filtered to
`channel_scan_lightweight`, by **exact signature equality** (a JS `Map`
keyed by the signature), not by `groupSimilarImages`: every reported group
has at least two members which are exactly the snapshot records carrying the
group's signature, and every signature occurring at least twice in the
snapshot yields exactly one reported group. -/
theorem scan_duplicate_groups (env : ScanEnv) (maxI : Nat) (st : ScannerState)
    (db : DBState) (channelId : String) (batchSize cooldown : Nat)
    (hscan : st.isScanning = false)
    (hchan : (if channelId = ("") then env.cfgChannelId else channelId) ≠ ("")) :
    ∃ r, (scanEntireChannelWithoutDownload env maxI st db channelId batchSize
        cooldown).1.results = some r
      ∧ (∀ g ∈ r.duplicateGroups,
          2 ≤ g.count ∧ g.images.length = g.count
          ∧ ∀ x, x ∈ g.images ↔
              (x ∈ (getAllImages (scanEntireChannelWithoutDownload env maxI st db
                  channelId batchSize cooldown).2.2).filter
                  (fun img => img.source == ("channel_scan_lightweight"))
                ∧ x.hash = g.hash))
      ∧ (∀ x ∈ (getAllImages (scanEntireChannelWithoutDownload env maxI st db
            channelId batchSize cooldown).2.2).filter
            (fun img => img.source == ("channel_scan_lightweight")),
          2 ≤ (((getAllImages (scanEntireChannelWithoutDownload env maxI st db
              channelId batchSize cooldown).2.2).filter
              (fun img => img.source == ("channel_scan_lightweight"))).filter
              (fun y => y.hash == x.hash)).length →
          ∃ g ∈ r.duplicateGroups, g.hash = x.hash) := by
  obtain ⟨r, hres, hgroups, _⟩ := scan_success_shape env maxI st db channelId
    batchSize cooldown hscan hchan
  have hspec := lightweightDuplicateGroups_spec
    ((getAllImages (scanEntireChannelWithoutDownload env maxI st db channelId
      batchSize cooldown).2.2).filter
      (fun img => img.source == ("channel_scan_lightweight")))
  refine ⟨r, hres, ?_, ?_⟩
  · intro g hg
    exact hspec.1 g (by rwa [hgroups] at hg)
  · intro x hx hcnt
    obtain ⟨g, hgmem, hghash⟩ := hspec.2 x hx hcnt
    exact ⟨g, by rwa [hgroups], hghash⟩

/-- A concrete photo message for the lightweight-scan runs below. -/
def c3msg (pid mid d : Int) : Msg :=
  { id := mid, date := d,
    media := some ⟨("messageMediaPhoto"), some ⟨pid, [⟨100, 200⟩]⟩, none⟩,
    photo := none }

/-- A concrete scan environment: one batch of two photo messages whose
structural signatures differ in a single character (photo ids
`12345678901` and `12345678902`). -/
def c3env : ScanEnv :=
  { cfgChannelId := (""), estimatedMessageCount := 2, channelChatId := 999,
    channelUsername := none,
    getMessages := fun _limit offsetId =>
      if offsetId = 0 then [c3msg 12345678901 1 100, c3msg 12345678902 2 200]
      else [] }

/-- The completed lightweight scan over `c3env`. -/
def c3run : ScanReturn × ScannerState × DBState :=
  scanEntireChannelWithoutDownload c3env 100
    { isScanning := false, processedMessageIds := [] } (loadDB initDB)
    ("chan") 100 3

/-- The first record the scan stores. -/
def c3recA : ImageRec :=
  { fileId := ("virtual_1"), hash := ("photo_12345678901_100x200"),
    messageId := 1, chatId := 999, userId := 0, fileSize := 0, width := 0,
    height := 0, timestamp := 100, source := ("channel_scan_lightweight"),
    addedAt := 0, channelUsername := none,
    messageLink := some ("https://t.me/chan/1") }

/-- The second record the scan stores. -/
def c3recB : ImageRec :=
  { fileId := ("virtual_2"), hash := ("photo_12345678902_100x200"),
    messageId := 2, chatId := 999, userId := 0, fileSize := 0, width := 0,
    height := 0, timestamp := 200, source := ("channel_scan_lightweight"),
    addedAt := 1, channelUsername := none,
    messageLink := some ("https://t.me/chan/2") }

/-- The two stored signatures are 96% similar under
`calculateSimilarityPercentage` (25 characters, 1 mismatch). -/
theorem c3_signature_similarity :
    calculateSimilarityPercentage ("photo_12345678901_100x200")
      ("photo_12345678902_100x200") = some 96 := by
  have hc : hashDiffCount ("photo_12345678901_100x200").data
      ("photo_12345678902_100x200").data = 1 := by decide
  have hlen : ("photo_12345678901_100x200" : String).length
      = ("photo_12345678902_100x200" : String).length := by decide
  have hl : ("photo_12345678901_100x200" : String).length = 25 := by decide
  rw [calculateSimilarityPercentage, calculateHashDistance, if_pos hlen, hc, hl]
  norm_num

/-- C3: the claim states that the duplicate groups reported at scan
completion equal `groupBySimilarity` (i.e. `groupSimilarImages`) at the
configured similarity threshold over the provenance-filtered durable
snapshot. Counterexample: a completed scan of two photo messages whose
structural signatures differ in one character of 25 reports **no** duplicate
groups (grouping is by exact signature equality), while `groupSimilarImages`
over the same provenance-filtered snapshot — working set or durable, they
coincide here — returns one group of both records, at the default similarity
threshold 95 as well as at the configured `hashDifferenceThreshold` 10. -/
theorem scan_groups_counterexample :
    (c3run.1.success = true)
  ∧ (c3run.1.results = some ⟨2, 2, 0, [], 0, ("gramjs")⟩)
  ∧ groupSimilarImages ((getAllImages c3run.2.2).filter
      (fun img => img.source == ("channel_scan_lightweight"))) 95
      = some [[c3recA, c3recB]]
  ∧ groupSimilarImages ((c3run.2.2.durable).filter
      (fun img => img.source == ("channel_scan_lightweight"))) 10
      = some [[c3recA, c3recB]]
  ∧ ([[c3recA, c3recB]] : List (List ImageRec)) ≠ [] := by
  have hsnap : (getAllImages c3run.2.2).filter
      (fun img => img.source == ("channel_scan_lightweight")) = [c3recA, c3recB] := rfl
  have hdur : (c3run.2.2.durable).filter
      (fun img => img.source == ("channel_scan_lightweight")) = [c3recA, c3recB] := rfl
  have henum : ([c3recA, c3recB] : List ImageRec).enum
      = [(0, c3recA), (1, c3recB)] := rfl
  refine ⟨rfl, rfl, ?_, ?_, by decide⟩
  · rw [hsnap, groupSimilarImages, henum, groupOuterLoop, if_neg (by decide),
      groupInnerLoop, if_pos rfl, groupInnerLoop, if_neg (by decide),
      if_neg (by decide),
      show calculateSimilarityPercentage c3recA.hash c3recB.hash = some 96 from
        c3_signature_similarity]
    rfl
  · rw [hdur, groupSimilarImages, henum, groupOuterLoop, if_neg (by decide),
      groupInnerLoop, if_pos rfl, groupInnerLoop, if_neg (by decide),
      if_neg (by decide),
      show calculateSimilarityPercentage c3recA.hash c3recB.hash = some 96 from
        c3_signature_similarity]
    rfl

/-- C3 witness: the amended characterisation evaluated on the concrete
completed scan `c3run`. -/
theorem scan_duplicate_groups_witness :
    (({ isScanning := false, processedMessageIds := [] }
        : ScannerState).isScanning = false
      ∧ (if ("chan" : String) = ("") then c3env.cfgChannelId else ("chan")) ≠ (""))
  ∧ (∃ r, (scanEntireChannelWithoutDownload c3env 100
        { isScanning := false, processedMessageIds := [] } (loadDB initDB)
        ("chan") 100 3).1.results = some r
      ∧ (∀ g ∈ r.duplicateGroups,
          2 ≤ g.count ∧ g.images.length = g.count
          ∧ ∀ x, x ∈ g.images ↔
              (x ∈ (getAllImages (scanEntireChannelWithoutDownload c3env 100
                  { isScanning := false, processedMessageIds := [] } (loadDB initDB)
                  ("chan") 100 3).2.2).filter
                  (fun img => img.source == ("channel_scan_lightweight"))
                ∧ x.hash = g.hash))
      ∧ (∀ x ∈ (getAllImages (scanEntireChannelWithoutDownload c3env 100
            { isScanning := false, processedMessageIds := [] } (loadDB initDB)
            ("chan") 100 3).2.2).filter
            (fun img => img.source == ("channel_scan_lightweight")),
          2 ≤ (((getAllImages (scanEntireChannelWithoutDownload c3env 100
              { isScanning := false, processedMessageIds := [] } (loadDB initDB)
              ("chan") 100 3).2.2).filter
              (fun img => img.source == ("channel_scan_lightweight"))).filter
              (fun y => y.hash == x.hash)).length →
          ∃ g ∈ r.duplicateGroups, g.hash = x.hash)) :=
  ⟨⟨rfl, by decide⟩,
    scan_duplicate_groups c3env 100
      { isScanning := false, processedMessageIds := [] } (loadDB initDB)
      ("chan") 100 3 rfl (by decide)⟩

end DUBlicat
